import Mathlib

/-!
# Verification of the library borrow/return ledger

Shallow embedding of the borrow/return workflow of a library-management
backend (`src/crud.py`, `src/models.py`, `main.py`).  The database state is
modelled as lists of rows; each repository operation from
`crud.BookRepository` becomes a Lean function on that state.  Timestamps are
natural numbers measured in days, so `datetime.now()` becomes an explicit
`now : Nat` argument and `timedelta(days=7)` becomes the constant
`LOAN_PERIOD_DAYS = 7`.  `HTTPException(status_code, detail)` becomes the
error type `Err`; a raised exception aborts the operation before commit, so
the error branches of the Lean functions return the state unchanged.
-/

namespace Library

/-- Row of the `books` table (`models.Book`): identity, bibliographic data and
the `is_available` flag.  The `created_at`/`updated_at` timestamp columns are
not consulted by any operation under verification and are omitted. -/
structure Book where
  id : Nat
  title : String
  author : String
  isbn : String
  is_available : Bool
deriving Repr, DecidableEq

/-- Row of the `book_borrows` table (`models.BookBorrow`): the borrow ledger.
`return_date = none` models SQL `NULL`, i.e. an open loan. -/
structure BookBorrow where
  id : Nat
  book_id : Nat
  user_id : Nat
  borrow_date : Nat
  due_date : Nat
  return_date : Option Nat
deriving Repr, DecidableEq

/-- The committed database state: the `books` and `book_borrows` tables, the
set of existing user ids (the only part of the `users` table the ledger could
consult), and the next primary key the store will assign to a borrow row. -/
structure DB where
  books : List Book
  borrows : List BookBorrow
  users : List Nat
  nextBorrowId : Nat
deriving Repr, DecidableEq

/-- `fastapi.HTTPException(status_code=code, detail=detail)`. -/
inductive Err where
  | http (code : Nat) (detail : String)
deriving Repr, DecidableEq

/-- The fixed loan period: `timedelta(days=7)` in `BookRepository.borrow_book`. -/
def LOAN_PERIOD_DAYS : Nat := 7

/-- The borrow record inserted by a successful `borrow_book`:
`BookBorrow(book_id=book_id, user_id=user_id, borrow_date=now,
due_date=now + timedelta(days=7), return_date=None)`; the store assigns the
next primary key. -/
def newBorrow (db : DB) (book_id user_id now : Nat) : BookBorrow :=
  { id := db.nextBorrowId, book_id := book_id, user_id := user_id,
    borrow_date := now, due_date := now + LOAN_PERIOD_DAYS,
    return_date := none }

/-- The state committed by a successful `borrow_book`: the book row is
flipped to `is_available = False` and the new borrow row is inserted. -/
def borrowDB (db : DB) (book_id user_id now : Nat) : DB :=
  { db with
    books := db.books.map fun b =>
      if b.id == book_id then { b with is_available := false } else b,
    borrows := db.borrows ++ [newBorrow db book_id user_id now],
    nextBorrowId := db.nextBorrowId + 1 }

/-- `BookRepository.borrow_book` (`src/crud.py` lines 104-129).
Looks up the book by id (`query(Book).filter_by(id=book_id).first()`);
raises 404 "Book not found" when absent, 400 "Book is already borrowed" when
`not book.is_available`; otherwise inserts a `BookBorrow` row with
`borrow_date = now`, `due_date = now + 7 days`, `return_date = None`, flips
`is_available` to `False` and commits both effects (see `newBorrow`,
`borrowDB`). -/
def borrow_book (db : DB) (book_id user_id now : Nat) :
    Except Err (BookBorrow × DB) :=
  match db.books.find? (fun b => b.id == book_id) with
  | none => .error (.http 404 "Book not found")
  | some book =>
    if !book.is_available then
      .error (.http 400 "Book is already borrowed")
    else
      .ok (newBorrow db book_id user_id now, borrowDB db book_id user_id now)

/-- The borrow table after a successful `return_book` that matched the open
record with primary key `rid`: that row's `due_date` and `return_date` are
both set to `now` (the code really overwrites `due_date` at return time). -/
def closeAt (l : List BookBorrow) (rid now : Nat) : List BookBorrow :=
  l.map fun r =>
    if r.id == rid then { r with due_date := now, return_date := some now }
    else r

/-- The state committed by a successful `return_book`: the matched borrow
row is closed (`closeAt`) and the book row is flipped to
`is_available = True`. -/
def returnDB (db : DB) (book_id rid now : Nat) : DB :=
  { db with
    books := db.books.map fun b =>
      if b.id == book_id then { b with is_available := true } else b,
    borrows := closeAt db.borrows rid now }

/-- `BookRepository.return_book` (`src/crud.py` lines 131-157).
Looks up the first `BookBorrow` row matching `book_id`, `user_id` and
`return_date IS NULL`; raises 404 "No active borrow found" when absent.
Otherwise it sets that row's `due_date` and `return_date` to `now`, looks the
book up again, flips `is_available` to `True` and commits, returning the
updated book (see `closeAt`, `returnDB`); if the book row is missing it
raises 404 "Book not found" before committing, so no mutation persists. -/
def return_book (db : DB) (book_id user_id now : Nat) :
    Except Err (Book × DB) :=
  match db.borrows.find? (fun r =>
      r.book_id == book_id && r.user_id == user_id && r.return_date == none) with
  | none => .error (.http 404 "No active borrow found")
  | some borrow =>
    match db.books.find? (fun b => b.id == book_id) with
    | none => .error (.http 404 "Book not found")
    | some book =>
      .ok ({ book with is_available := true },
        returnDB db book_id borrow.id now)

/-- One output row of `BookRepository.get_all_books`: a `schemas.Book` built
from a book row outer-joined with a `BookBorrow` row (or with NULLs). -/
structure BookOut where
  id : Nat
  title : String
  author : String
  isbn : String
  is_available : Bool
  borrow_date : Option Nat
  due_date : Option Nat
  return_date : Option Nat
deriving Repr, DecidableEq

/-- Build a `schemas.Book` response row from a book and optional borrow data. -/
def bookRow (b : Book) (bd dd rd : Option Nat) : BookOut :=
  { id := b.id, title := b.title, author := b.author, isbn := b.isbn,
    is_available := b.is_available, borrow_date := bd, due_date := dd,
    return_date := rd }

/-- `BookRepository.get_all_books` (`src/crud.py` lines 159-182):
`Book LEFT OUTER JOIN BookBorrow ON Book.id == BookBorrow.book_id`.  A book
with no borrow rows yields one row with NULL borrow metadata; a book with
borrow rows yields one row per borrow row.  Never raises. -/
def get_all_books (db : DB) : List BookOut :=
  db.books.flatMap fun b =>
    match db.borrows.filter (fun r => r.book_id == b.id) with
    | [] => [bookRow b none none none]
    | rs => rs.map fun r =>
        bookRow b (some r.borrow_date) (some r.due_date) r.return_date

/-- One output row of `BookRepository.get_borrowed_books`
(`schemas.BookBorrowedResponse`). -/
structure BookBorrowedResponse where
  id : Nat
  title : String
  author : String
  isbn : String
  borrow_date : Nat
  due_date : Nat
deriving Repr, DecidableEq

/-- Build a `schemas.BookBorrowedResponse` row from a book and a borrow row. -/
def borrowedRow (b : Book) (r : BookBorrow) : BookBorrowedResponse :=
  { id := b.id, title := b.title, author := b.author, isbn := b.isbn,
    borrow_date := r.borrow_date, due_date := r.due_date }

/-- The join computed by `BookRepository.get_borrowed_books`:
`Book JOIN BookBorrow ON Book.id == BookBorrow.book_id` filtered by
`Book.is_available == False` — note there is no filter on `return_date`, so
closed borrow rows also produce entries. -/
def borrowedRows (db : DB) : List BookBorrowedResponse :=
  db.books.flatMap fun b =>
    if b.is_available then []
    else (db.borrows.filter (fun r => r.book_id == b.id)).map (borrowedRow b)

/-- `BookRepository.get_borrowed_books` (`src/crud.py` lines 184-203):
returns the `borrowedRows` join, raising 404 "No borrowed books found" when
it is empty. -/
def get_borrowed_books (db : DB) :
    Except Err (List BookBorrowedResponse) :=
  if (borrowedRows db).isEmpty then .error (.http 404 "No borrowed books found")
  else .ok (borrowedRows db)

/-- A single ledger request: `POST /books/{id}/borrow` or
`POST /books/{id}/return`, with the wall-clock instant at which it runs. -/
inductive Op where
  | borrow (book_id user_id now : Nat)
  | ret (book_id user_id now : Nat)
deriving Repr, DecidableEq

/-- Apply one request to the committed state.  A raised `HTTPException`
aborts before commit, so the state is unchanged on error. -/
def applyOp (db : DB) : Op → DB
  | .borrow bid uid now =>
    match borrow_book db bid uid now with
    | .ok (_, db') => db'
    | .error _ => db
  | .ret bid uid now =>
    match return_book db bid uid now with
    | .ok (_, db') => db'
    | .error _ => db

/-- Run a sequence of borrow/return requests. -/
def run (db : DB) (ops : List Op) : DB :=
  ops.foldl applyOp db

/-- An initial state: every book available, no borrow records, and book ids
distinct (the `books.id` primary-key constraint). -/
def Init (db : DB) : Prop :=
  (∀ b ∈ db.books, b.is_available = true) ∧ db.borrows = [] ∧
    (db.books.map Book.id).Nodup

/-- States reachable from an initial state by borrow/return requests. -/
def Reachable (db : DB) : Prop :=
  ∃ db₀ ops, Init db₀ ∧ run db₀ ops = db

/-- Number of open borrow records (`return_date IS NULL`) for book id `bid`. -/
def openFor (db : DB) (bid : Nat) : Nat :=
  db.borrows.countP fun r => r.book_id == bid && r.return_date == none

/-- The inductive well-formedness invariant maintained by the ledger:
primary keys of both tables are distinct, borrow primary keys are below the
store's next key, each book has exactly one open borrow record when
unavailable and none when available, and every borrow record references an
existing book (the `book_id` foreign key). -/
structure WF (db : DB) : Prop where
  books_nodup : (db.books.map Book.id).Nodup
  borrows_nodup : (db.borrows.map BookBorrow.id).Nodup
  ids_lt : ∀ r ∈ db.borrows, r.id < db.nextBorrowId
  avail : ∀ b ∈ db.books, openFor db b.id = if b.is_available then 0 else 1
  fk : ∀ r ∈ db.borrows, ∃ b ∈ db.books, b.id = r.book_id

/-! ## Characterization lemmas for the two mutating operations -/

theorem borrow_book_ok_iff {db : DB} {bid uid now : Nat} {r : BookBorrow}
    {db' : DB} :
    borrow_book db bid uid now = .ok (r, db') ↔
      (∃ b, db.books.find? (fun b => b.id == bid) = some b ∧
        b.is_available = true) ∧
      r = newBorrow db bid uid now ∧ db' = borrowDB db bid uid now := by
  unfold borrow_book
  cases h : db.books.find? (fun b => b.id == bid) with
  | none => simp
  | some b =>
    by_cases hav : b.is_available
    · simp only [hav, Bool.not_true, Bool.false_eq_true, if_false,
        Except.ok.injEq, Prod.mk.injEq, Option.some.injEq]
      constructor
      · rintro ⟨rfl, rfl⟩; exact ⟨⟨b, rfl, hav⟩, rfl, rfl⟩
      · rintro ⟨-, rfl, rfl⟩; exact ⟨rfl, rfl⟩
    · simp only [Bool.not_eq_true] at hav
      simp only [hav, Bool.not_false, if_true, Option.some.injEq]
      constructor
      · rintro h; cases h
      · rintro ⟨⟨b', rfl, hb'⟩, -, -⟩; simp [hb'] at hav

theorem borrow_book_notFound_iff {db : DB} {bid uid now : Nat} :
    borrow_book db bid uid now = .error (.http 404 "Book not found") ↔
      db.books.find? (fun b => b.id == bid) = none := by
  unfold borrow_book
  cases h : db.books.find? (fun b => b.id == bid) with
  | none => simp
  | some b => by_cases hav : b.is_available <;> simp [hav]

theorem borrow_book_conflict_iff {db : DB} {bid uid now : Nat} :
    borrow_book db bid uid now = .error (.http 400 "Book is already borrowed") ↔
      ∃ b, db.books.find? (fun b => b.id == bid) = some b ∧
        b.is_available = false := by
  unfold borrow_book
  cases h : db.books.find? (fun b => b.id == bid) with
  | none => simp
  | some b => by_cases hav : b.is_available <;> simp [hav]

theorem return_book_ok_iff {db : DB} {bid uid now : Nat} {bk : Book}
    {db' : DB} :
    return_book db bid uid now = .ok (bk, db') ↔
      ∃ r₀ book,
        db.borrows.find? (fun r =>
          r.book_id == bid && r.user_id == uid && r.return_date == none) = some r₀ ∧
        db.books.find? (fun b => b.id == bid) = some book ∧
        bk = { book with is_available := true } ∧
        db' = returnDB db bid r₀.id now := by
  unfold return_book
  cases h : db.borrows.find? (fun r =>
      r.book_id == bid && r.user_id == uid && r.return_date == none) with
  | none => simp
  | some r₀ =>
    cases hb : db.books.find? (fun b => b.id == bid) with
    | none => simp
    | some book =>
      simp only [Except.ok.injEq, Prod.mk.injEq, Option.some.injEq]
      constructor
      · rintro ⟨rfl, rfl⟩; exact ⟨r₀, book, rfl, rfl, rfl, rfl⟩
      · rintro ⟨r₁, book', rfl, rfl, rfl, rfl⟩; exact ⟨rfl, rfl⟩

theorem return_book_notFound_iff {db : DB} {bid uid now : Nat} :
    return_book db bid uid now = .error (.http 404 "No active borrow found") ↔
      db.borrows.find? (fun r =>
        r.book_id == bid && r.user_id == uid && r.return_date == none) = none := by
  unfold return_book
  cases h : db.borrows.find? (fun r =>
      r.book_id == bid && r.user_id == uid && r.return_date == none) with
  | none => simp
  | some r₀ =>
    cases hb : db.books.find? (fun b => b.id == bid) with
    | none => simp
    | some book => simp

/-! ## List helpers about rows addressed by a primary key -/

theorem map_key_map_of_key_eq {α : Type} (key : α → Nat) {f : α → α}
    (hf : ∀ a, key (f a) = key a) (l : List α) :
    (l.map f).map key = l.map key := by
  induction l with
  | nil => rfl
  | cons a l ih => simp [hf, ih]

theorem key_inj_of_nodup {α : Type} (key : α → Nat) {l : List α}
    (hnd : (l.map key).Nodup) {a b : α} (ha : a ∈ l) (hb : b ∈ l)
    (hk : key a = key b) : a = b := by
  induction l with
  | nil => cases ha
  | cons x l ih =>
    rw [List.map_cons, List.nodup_cons] at hnd
    rcases List.mem_cons.mp ha with rfl | ha' <;>
      rcases List.mem_cons.mp hb with rfl | hb'
    · rfl
    · exact absurd (hk ▸ List.mem_map_of_mem key hb') hnd.1
    · exact absurd (hk ▸ List.mem_map_of_mem key ha') hnd.1
    · exact ih hnd.2 ha' hb'

theorem find?_key_of_nodup {α : Type} (key : α → Nat) {l : List α}
    (hnd : (l.map key).Nodup) {a : α} (ha : a ∈ l) {k : Nat}
    (hk : key a = k) :
    l.find? (fun x => key x == k) = some a := by
  induction l with
  | nil => cases ha
  | cons x l ih =>
    rw [List.map_cons, List.nodup_cons] at hnd
    rcases List.mem_cons.mp ha with rfl | ha'
    · rw [List.find?_cons_of_pos _ (by simp [hk])]
    · have hx : key x ≠ k := by
        intro h
        exact hnd.1 ((h.trans hk.symm) ▸ List.mem_map_of_mem key ha')
      rw [List.find?_cons_of_neg _ (by simp [hx])]
      exact ih hnd.2 ha'

theorem countP_key_of_nodup {α : Type} (key : α → Nat) {l : List α}
    (hnd : (l.map key).Nodup) {a : α} (ha : a ∈ l) (p : α → Bool) :
    l.countP (fun x => key x == key a && p x) = if p a then 1 else 0 := by
  induction l with
  | nil => cases ha
  | cons x l ih =>
    rw [List.map_cons, List.nodup_cons] at hnd
    rw [List.countP_cons]
    rcases List.mem_cons.mp ha with rfl | ha'
    · have h0 : l.countP (fun x => key x == key a && p x) = 0 := by
        rw [List.countP_eq_zero]
        intro b hb hb'
        have : key b = key a := by
          have h1 := (Bool.and_eq_true _ _).mp hb' |>.1
          exact beq_iff_eq.mp h1
        exact hnd.1 (this ▸ List.mem_map_of_mem key hb)
      rw [h0]
      cases hp : p a <;> simp [hp]
    · have hx : key x ≠ key a := by
        intro h
        exact hnd.1 (h ▸ List.mem_map_of_mem key ha')
      have hhead : (key x == key a && p x) = false := by
        simp [beq_iff_eq, hx]
      rw [hhead, ih hnd.2 ha']
      simp

theorem sum_map_filter {α : Type} (p : α → Bool) (g : α → Nat) (l : List α)
    (h0 : ∀ a ∈ l, p a = false → g a = 0) :
    (l.map g).sum = ((l.filter p).map g).sum := by
  induction l with
  | nil => rfl
  | cons x l ih =>
    rw [List.map_cons, List.sum_cons]
    cases hp : p x
    · rw [h0 x (List.mem_cons_self x l) hp,
        List.filter_cons_of_neg (by simp [hp]),
        ih (fun a ha => h0 a (List.mem_cons_of_mem _ ha)), Nat.zero_add]
    · rw [List.filter_cons_of_pos hp, List.map_cons, List.sum_cons,
        ih (fun a ha => h0 a (List.mem_cons_of_mem _ ha))]

theorem countP_split {α : Type} (p q : α → Bool) (l : List α) :
    l.countP p =
      l.countP (fun a => q a && p a) + l.countP (fun a => !q a && p a) := by
  induction l with
  | nil => rfl
  | cons x l ih =>
    rw [List.countP_cons, List.countP_cons, List.countP_cons]
    cases hq : q x <;> cases hp : p x <;> simp [hq, hp, ih] <;> omega

/-! ## Open-record counting across the two commits -/

theorem openFor_borrowDB (db : DB) (bid uid now bid' : Nat) :
    openFor (borrowDB db bid uid now) bid' =
      openFor db bid' + (if bid = bid' then 1 else 0) := by
  unfold openFor borrowDB newBorrow
  rw [List.countP_append]
  simp [List.countP_cons, beq_iff_eq]

theorem openFor_returnDB {db : DB} {r₀ : BookBorrow}
    (hnd : (db.borrows.map BookBorrow.id).Nodup)
    (hr : r₀ ∈ db.borrows) (hopen : r₀.return_date = none)
    (bid now bid' : Nat) :
    openFor db bid' =
      openFor (returnDB db bid r₀.id now) bid' +
        (if r₀.book_id = bid' then 1 else 0) := by
  unfold openFor returnDB closeAt
  rw [List.countP_map]
  have hcomp :
      ((fun r : BookBorrow => r.book_id == bid' && r.return_date == none) ∘
        (fun r => if r.id == r₀.id then
          { r with due_date := now, return_date := some now } else r)) =
      fun r => !(r.id == r₀.id) &&
        (r.book_id == bid' && r.return_date == none) := by
    funext r
    by_cases h : r.id = r₀.id <;> simp [h]
  rw [hcomp]
  have hone : db.borrows.countP
      (fun r => r.id == r₀.id && (r.book_id == bid' && r.return_date == none)) =
      if r₀.book_id = bid' then 1 else 0 := by
    rw [countP_key_of_nodup BookBorrow.id hnd hr
      (fun r => r.book_id == bid' && r.return_date == none)]
    simp [hopen]
  rw [countP_split
    (fun r : BookBorrow => r.book_id == bid' && r.return_date == none)
    (fun r => r.id == r₀.id) db.borrows, hone]
  exact Nat.add_comm _ _

/-! ## The invariant is established initially and preserved by each step -/

theorem WF_init {db : DB} (h : Init db) : WF db := by
  obtain ⟨hav, hb, hnd⟩ := h
  constructor
  · exact hnd
  · rw [hb]; exact List.nodup_nil
  · rw [hb]; intro r hr; cases hr
  · intro b hbm; simp [openFor, hb, hav b hbm]
  · rw [hb]; intro r hr; cases hr

theorem WF_borrowDB {db : DB} {bid uid now : Nat} {b₀ : Book}
    (hwf : WF db)
    (hfind : db.books.find? (fun b => b.id == bid) = some b₀)
    (hav : b₀.is_available = true) : WF (borrowDB db bid uid now) := by
  have hb₀mem := List.mem_of_find?_eq_some hfind
  have hb₀id : b₀.id = bid := by
    have h1 := List.find?_some hfind
    simpa using h1
  constructor
  case books_nodup =>
    show ((db.books.map _).map Book.id).Nodup
    rw [map_key_map_of_key_eq Book.id
      (fun a => by by_cases h : a.id = bid <;> simp [h])]
    exact hwf.books_nodup
  case borrows_nodup =>
    show ((db.borrows ++ [newBorrow db bid uid now]).map BookBorrow.id).Nodup
    rw [List.map_append, List.nodup_append]
    refine ⟨hwf.borrows_nodup, List.nodup_singleton _, ?_⟩
    intro x hx hx'
    obtain ⟨r, hrm, hrid⟩ := List.mem_map.mp hx
    simp [newBorrow] at hx'
    have := hwf.ids_lt r hrm
    omega
  case ids_lt =>
    intro r hr
    rcases List.mem_append.mp hr with h | h
    · exact Nat.lt_succ_of_lt (hwf.ids_lt r h)
    · have : r = newBorrow db bid uid now := by simpa using h
      rw [this]
      exact Nat.lt_succ_self _
  case avail =>
    intro b' hb'
    obtain ⟨b, hb, rfl⟩ := List.mem_map.mp hb'
    by_cases h : b.id = bid
    · have hb₀ : b = b₀ :=
        key_inj_of_nodup Book.id hwf.books_nodup hb hb₀mem (by rw [h, hb₀id])
      subst hb₀
      have h0 : openFor db b.id = 0 := by
        have := hwf.avail b hb
        rw [hav] at this
        simpa using this
      rw [h] at h0
      rw [openFor_borrowDB]
      simp [h, h0]
    · rw [openFor_borrowDB]
      simp only [h, if_false, beq_iff_eq]
      have hne : ¬ bid = b.id := fun hh => h hh.symm
      simp only [hne, if_false, Nat.add_zero]
      exact hwf.avail b hb
  case fk =>
    intro r hr
    rcases List.mem_append.mp hr with h | h
    · obtain ⟨b, hb, hbid⟩ := hwf.fk r h
      refine ⟨if b.id == bid then { b with is_available := false } else b,
        List.mem_map_of_mem _ hb, ?_⟩
      have hproj :
          (if b.id == bid then { b with is_available := false } else b).id
            = b.id := by
        by_cases hh : b.id = bid <;> simp [hh]
      rw [hproj]
      exact hbid
    · have : r = newBorrow db bid uid now := by simpa using h
      rw [this]
      refine ⟨if b₀.id == bid then { b₀ with is_available := false } else b₀,
        List.mem_map_of_mem _ hb₀mem, ?_⟩
      simp [hb₀id, newBorrow]

theorem WF_returnDB {db : DB} {bid uid now : Nat} {r₀ : BookBorrow}
    (hwf : WF db)
    (hfindr : db.borrows.find? (fun r =>
      r.book_id == bid && r.user_id == uid && r.return_date == none) = some r₀) :
    WF (returnDB db bid r₀.id now) := by
  have hr₀mem := List.mem_of_find?_eq_some hfindr
  have hp := List.find?_some hfindr
  simp only [Bool.and_eq_true, beq_iff_eq] at hp
  obtain ⟨⟨hr₀bid, hr₀uid⟩, hr₀open⟩ := hp
  have hr₀open' : r₀.return_date = none := by simpa using hr₀open
  constructor
  case books_nodup =>
    show ((db.books.map _).map Book.id).Nodup
    rw [map_key_map_of_key_eq Book.id
      (fun a => by by_cases h : a.id = bid <;> simp [h])]
    exact hwf.books_nodup
  case borrows_nodup =>
    show ((closeAt db.borrows r₀.id now).map BookBorrow.id).Nodup
    unfold closeAt
    rw [map_key_map_of_key_eq BookBorrow.id
      (fun a => by by_cases h : a.id = r₀.id <;> simp [h])]
    exact hwf.borrows_nodup
  case ids_lt =>
    intro r hr
    have hnext : (returnDB db bid r₀.id now).nextBorrowId = db.nextBorrowId := rfl
    rw [hnext]
    obtain ⟨r', hr', rfl⟩ := List.mem_map.mp hr
    have := hwf.ids_lt r' hr'
    by_cases h : r'.id = r₀.id <;> simp [h] <;> omega
  case avail =>
    intro b' hb'
    obtain ⟨b, hb, rfl⟩ := List.mem_map.mp hb'
    have hcount := openFor_returnDB hwf.borrows_nodup hr₀mem hr₀open' bid now b.id
    by_cases h : b.id = bid
    · have hpos : 0 < openFor db b.id := by
        rw [openFor, List.countP_pos_iff]
        exact ⟨r₀, hr₀mem, by simp [hr₀bid, h, hr₀open']⟩
      have havail := hwf.avail b hb
      have hbav : b.is_available = false := by
        cases hba : b.is_available
        · rfl
        · exfalso; rw [hba] at havail; simp at havail; omega
      rw [hbav] at havail
      simp only [Bool.false_eq_true, if_false] at havail
      have hc2 : openFor (returnDB db bid r₀.id now) b.id = 0 := by
        rw [havail, if_pos (by rw [hr₀bid, h])] at hcount
        omega
      simp only [h, beq_self_eq_true, if_true]
      rw [h] at hc2
      simpa [h] using hc2
    · have hne : r₀.book_id ≠ b.id := by
        rw [hr₀bid]; exact fun hh => h hh.symm
      rw [if_neg hne, Nat.add_zero] at hcount
      simp only [h, beq_iff_eq, if_false]
      rw [← hcount]
      exact hwf.avail b hb
  case fk =>
    intro r hr
    obtain ⟨r', hr', rfl⟩ := List.mem_map.mp hr
    obtain ⟨b, hb, hbid⟩ := hwf.fk r' hr'
    refine ⟨if b.id == bid then { b with is_available := true } else b,
      List.mem_map_of_mem _ hb, ?_⟩
    by_cases hh : b.id = bid <;> by_cases hr'' : r'.id = r₀.id <;>
      simp [hh, hr''] <;> rw [← hbid] <;> try rw [hh]

theorem WF_applyOp {db : DB} (hwf : WF db) (op : Op) : WF (applyOp db op) := by
  cases op with
  | borrow bid uid now =>
    simp only [applyOp]
    cases h : borrow_book db bid uid now with
    | ok p =>
      obtain ⟨r, db'⟩ := p
      obtain ⟨⟨b₀, hfind, hav⟩, -, rfl⟩ := borrow_book_ok_iff.mp h
      exact WF_borrowDB hwf hfind hav
    | error e => exact hwf
  | ret bid uid now =>
    simp only [applyOp]
    cases h : return_book db bid uid now with
    | ok p =>
      obtain ⟨bk, db'⟩ := p
      obtain ⟨r₀, book₀, hfindr, hfindb, -, rfl⟩ := return_book_ok_iff.mp h
      exact WF_returnDB hwf hfindr
    | error e => exact hwf

theorem WF_run {db : DB} (hwf : WF db) (ops : List Op) : WF (run db ops) := by
  induction ops generalizing db with
  | nil => exact hwf
  | cons op ops ih => exact ih (WF_applyOp hwf op)

theorem reachable_WF {db : DB} (h : Reachable db) : WF db := by
  obtain ⟨db₀, ops, h0, rfl⟩ := h
  exact WF_run (WF_init h0) ops

/-! ## Concrete states used to instantiate the theorems -/

/-- A sample catalog entry. -/
def wBook : Book :=
  { id := 1, title := "Dune", author := "Herbert",
    isbn := "9780441172719", is_available := true }

/-- A sample initial state: one available book, one user, no borrows. -/
def wInit : DB :=
  { books := [wBook], borrows := [], users := [7], nextBorrowId := 1 }

/-- `wInit` after user 7 borrows book 1 at time 0. -/
def wBorrowed : DB := run wInit [Op.borrow 1 7 0]

/-- `wInit` after a full borrow/return cycle: book 1 is available again and
one closed borrow record remains. -/
def wCycled : DB := run wInit [Op.borrow 1 7 0, Op.ret 1 7 1]

/-- `wInit` after borrow, return, borrow again: book 1 is unavailable and
has one closed and one open borrow record. -/
def wReborrowed : DB :=
  run wInit [Op.borrow 1 7 0, Op.ret 1 7 1, Op.borrow 1 7 2]

/-! ## Claim theorems -/

/-- Claim C1: in every state reachable from an initial state (all books available,
no borrow records) by any sequence of borrow and return operations, a book's
`is_available` flag is `false` exactly when one `BookBorrow` row with
`book_id = b.id` and `return_date IS NULL` exists; and applying any further
operation preserves this invariant. -/
theorem availability_invariant (db : DB) (h : Reachable db) :
    (∀ b ∈ db.books, (b.is_available = false ↔ openFor db b.id = 1)) ∧
    ∀ op : Op, ∀ b ∈ (applyOp db op).books,
      (b.is_available = false ↔ openFor (applyOp db op) b.id = 1) := by
  have main : ∀ d, WF d → ∀ b ∈ d.books,
      (b.is_available = false ↔ openFor d b.id = 1) := by
    intro d hd b hb
    have hav := hd.avail b hb
    constructor
    · intro hf; rw [hf] at hav; simpa using hav
    · intro h1
      cases hba : b.is_available
      · rfl
      · rw [hba] at hav; simp at hav; omega
  exact ⟨main db (reachable_WF h),
    fun op => main _ (WF_applyOp (reachable_WF h) op)⟩

/-- Witness for C1: the invariant holds at the concrete reachable state
`wBorrowed` for the now-unavailable book. -/
theorem availability_invariant_witness :
    ({ wBook with is_available := false }.is_available = false ↔
      openFor wBorrowed { wBook with is_available := false }.id = 1) :=
  (availability_invariant wBorrowed
      ⟨wInit, [Op.borrow 1 7 0], ⟨by decide, rfl, by decide⟩, rfl⟩).1
    { wBook with is_available := false } (by decide)

/-- Claim C2: `Borrow(bookId, memberId)` fails with 404 NotFound exactly when no
book with that id exists; fails with the already-borrowed conflict (HTTP 400,
which the spec's API layer surfaces as the domain `Conflict`) exactly when
the book exists and is unavailable; any failure leaves the state unchanged;
and when the book exists and is available the call succeeds with a new
borrow record.  The hypothesis is the `books.id` primary-key constraint. -/
theorem borrow_failure_contract (db : DB) (bid uid now : Nat)
    (hnd : (db.books.map Book.id).Nodup) :
    (borrow_book db bid uid now = .error (.http 404 "Book not found") ↔
      ∀ b ∈ db.books, b.id ≠ bid) ∧
    (borrow_book db bid uid now = .error (.http 400 "Book is already borrowed") ↔
      ∃ b ∈ db.books, b.id = bid ∧ b.is_available = false) ∧
    (∀ e, borrow_book db bid uid now = .error e →
      applyOp db (.borrow bid uid now) = db) ∧
    ((∃ b ∈ db.books, b.id = bid ∧ b.is_available = true) →
      ∃ r db', borrow_book db bid uid now = .ok (r, db')) := by
  refine ⟨?_, ?_, ?_, ?_⟩
  · rw [borrow_book_notFound_iff, List.find?_eq_none]
    constructor
    · intro hh b hb; have := hh b hb; simpa using this
    · intro hh b hb; simpa using hh b hb
  · rw [borrow_book_conflict_iff]
    constructor
    · rintro ⟨b, hfind, hbav⟩
      exact ⟨b, List.mem_of_find?_eq_some hfind,
        by simpa using List.find?_some hfind, hbav⟩
    · rintro ⟨b, hb, hbid, hbav⟩
      exact ⟨b, find?_key_of_nodup Book.id hnd hb hbid, hbav⟩
  · intro e he
    simp only [applyOp, he]
  · rintro ⟨b, hb, hbid, hbav⟩
    exact ⟨newBorrow db bid uid now, borrowDB db bid uid now,
      borrow_book_ok_iff.mpr
        ⟨⟨b, find?_key_of_nodup Book.id hnd hb hbid, hbav⟩, rfl, rfl⟩⟩

/-- Witness for C2: borrowing the already-borrowed book 1 in `wBorrowed` yields
the conflict error. -/
theorem borrow_failure_contract_witness :
    borrow_book wBorrowed 1 9 5 = .error (.http 400 "Book is already borrowed") :=
  (borrow_failure_contract wBorrowed 1 9 5 (by decide)).2.1.mpr (by decide)

/-- Claim C3: when the book exists and is available, `Borrow` succeeds, appending
exactly one new borrow record with `borrow_date = now`,
`due_date = borrow_date + 7` (the fixed loan period, in days),
`return_date = NULL`, and flips that book's `is_available` to false. -/
theorem borrow_success_postcondition (db : DB) (bid uid now : Nat) (b : Book)
    (hnd : (db.books.map Book.id).Nodup) (hb : b ∈ db.books)
    (hid : b.id = bid) (hav : b.is_available = true) :
    ∃ r db', borrow_book db bid uid now = .ok (r, db') ∧
      r.borrow_date = now ∧
      r.due_date = r.borrow_date + LOAN_PERIOD_DAYS ∧ LOAN_PERIOD_DAYS = 7 ∧
      r.return_date = none ∧ r.book_id = bid ∧ r.user_id = uid ∧
      db'.borrows = db.borrows ++ [r] ∧
      ∀ b' ∈ db'.books, b'.id = bid → b'.is_available = false := by
  refine ⟨newBorrow db bid uid now, borrowDB db bid uid now,
    borrow_book_ok_iff.mpr
      ⟨⟨b, find?_key_of_nodup Book.id hnd hb hid, hav⟩, rfl, rfl⟩,
    rfl, rfl, rfl, rfl, rfl, rfl, rfl, ?_⟩
  intro b' hb' hbid'
  obtain ⟨c, hc, rfl⟩ := List.mem_map.mp hb'
  by_cases h : c.id = bid
  · simp [h]
  · simp [h] at hbid'

/-- Witness for C3: borrowing book 1 from the fresh state `wInit` at time 0. -/
theorem borrow_success_postcondition_witness :
    ∃ r db', borrow_book wInit 1 7 0 = .ok (r, db') ∧
      r.borrow_date = 0 ∧
      r.due_date = r.borrow_date + LOAN_PERIOD_DAYS ∧ LOAN_PERIOD_DAYS = 7 ∧
      r.return_date = none ∧ r.book_id = 1 ∧ r.user_id = 7 ∧
      db'.borrows = wInit.borrows ++ [r] ∧
      ∀ b' ∈ db'.books, b'.id = 1 → b'.is_available = false :=
  borrow_success_postcondition wInit 1 7 0 wBook (by decide) (by decide)
    rfl rfl

/-- Claim C4: `Return(bookId, memberId)` succeeds exactly when an open borrow
record matching both ids exists; on success it closes the first such record
(setting its `return_date` to now), flips the book's `is_available` to true
and returns the updated book; with no matching open record it fails with 404
"No active borrow found" and changes nothing.  The hypothesis is the
`book_borrows.book_id` foreign-key constraint. -/
theorem return_contract (db : DB) (bid uid now : Nat)
    (hfk : ∀ r ∈ db.borrows, ∃ b ∈ db.books, b.id = r.book_id) :
    ((∃ r ∈ db.borrows,
        r.book_id = bid ∧ r.user_id = uid ∧ r.return_date = none) ↔
      ∃ bk db', return_book db bid uid now = .ok (bk, db')) ∧
    (∀ bk db', return_book db bid uid now = .ok (bk, db') →
      bk.id = bid ∧ bk.is_available = true ∧
      (∀ b' ∈ db'.books, b'.id = bid → b'.is_available = true) ∧
      (∀ b' ∈ db'.books, b'.id ≠ bid → b' ∈ db.books) ∧
      ∃ r₀, db.borrows.find? (fun r =>
          r.book_id == bid && r.user_id == uid && r.return_date == none) =
            some r₀ ∧
        db'.borrows = closeAt db.borrows r₀.id now) ∧
    ((¬ ∃ r ∈ db.borrows,
        r.book_id = bid ∧ r.user_id = uid ∧ r.return_date = none) →
      return_book db bid uid now = .error (.http 404 "No active borrow found") ∧
      applyOp db (.ret bid uid now) = db) := by
  refine ⟨⟨?_, ?_⟩, ?_, ?_⟩
  · rintro ⟨r, hr, hrb, hru, hro⟩
    have hsome : (db.borrows.find? (fun r =>
        r.book_id == bid && r.user_id == uid && r.return_date == none)).isSome := by
      rw [List.find?_isSome]
      exact ⟨r, hr, by simp [hrb, hru, hro]⟩
    obtain ⟨r₀, hr₀⟩ := Option.isSome_iff_exists.mp hsome
    have hr₀p := List.find?_some hr₀
    simp only [Bool.and_eq_true, beq_iff_eq] at hr₀p
    obtain ⟨⟨hr₀b, -⟩, -⟩ := hr₀p
    obtain ⟨b, hbm, hbid⟩ := hfk r₀ (List.mem_of_find?_eq_some hr₀)
    have hbsome : (db.books.find? (fun b => b.id == bid)).isSome := by
      rw [List.find?_isSome]
      exact ⟨b, hbm, by simp [hbid, hr₀b]⟩
    obtain ⟨b₀, hb₀⟩ := Option.isSome_iff_exists.mp hbsome
    exact ⟨{ b₀ with is_available := true }, returnDB db bid r₀.id now,
      return_book_ok_iff.mpr ⟨r₀, b₀, hr₀, hb₀, rfl, rfl⟩⟩
  · rintro ⟨bk, db', hok⟩
    obtain ⟨r₀, b₀, hr₀, hb₀, -, -⟩ := return_book_ok_iff.mp hok
    have hr₀p := List.find?_some hr₀
    simp only [Bool.and_eq_true, beq_iff_eq] at hr₀p
    obtain ⟨⟨h1, h2⟩, h3⟩ := hr₀p
    exact ⟨r₀, List.mem_of_find?_eq_some hr₀, h1, h2, by simpa using h3⟩
  · intro bk db' hok
    obtain ⟨r₀, b₀, hr₀, hb₀, rfl, rfl⟩ := return_book_ok_iff.mp hok
    have hb₀id : b₀.id = bid := by simpa using List.find?_some hb₀
    refine ⟨hb₀id, rfl, ?_, ?_, r₀, hr₀, rfl⟩
    · intro b' hb' hbid'
      obtain ⟨c, hc, rfl⟩ := List.mem_map.mp hb'
      by_cases h : c.id = bid
      · simp [h]
      · simp [h] at hbid'
    · intro b' hb' hbne
      obtain ⟨c, hc, rfl⟩ := List.mem_map.mp hb'
      by_cases h : c.id = bid
      · exfalso; apply hbne; simp [h]
      · simpa [h] using hc
  · intro hno
    have hnone : db.borrows.find? (fun r =>
        r.book_id == bid && r.user_id == uid && r.return_date == none) = none := by
      rw [List.find?_eq_none]
      intro r hr hp
      simp only [Bool.and_eq_true, beq_iff_eq] at hp
      exact hno ⟨r, hr, hp.1.1, hp.1.2, by simpa using hp.2⟩
    refine ⟨return_book_notFound_iff.mpr hnone, ?_⟩
    simp only [applyOp, return_book_notFound_iff.mpr hnone]

/-- Witness for C4: returning book 1 in `wBorrowed` (borrowed by user 7). -/
theorem return_contract_witness :
    ((∃ r ∈ wBorrowed.borrows,
        r.book_id = 1 ∧ r.user_id = 7 ∧ r.return_date = none) ↔
      ∃ bk db', return_book wBorrowed 1 7 3 = .ok (bk, db')) :=
  (return_contract wBorrowed 1 7 3 (by decide)).1

/-- Claim C5: the claim that a successful return preserves the record's `due_date`
is FALSIFIED by the code: `return_book` executes
`borrow.due_date = datetime.now()` before setting `return_date`
(`src/crud.py` line 142).  Concretely, borrowing book 1 at time 0 stores
`due_date = 7`; returning at time 10 leaves the record with `due_date = 10`,
not the value assigned at borrow time.  The spec's own section 9 flags this
overwrite as "very likely unintentional", so the code, not the claim, is in
error. -/
theorem return_overwrites_due_date :
    wBorrowed.borrows.map BookBorrow.due_date = [LOAN_PERIOD_DAYS] ∧
    ((return_book wBorrowed 1 7 10).toOption.map fun p =>
      p.2.borrows.map BookBorrow.due_date) = some [10] := by
  decide

/-- Counterexample for C6: in the reachable state `wCycled` (one earlier
borrow/return cycle), book 1 exists and is available, yet performing
`Borrow(1,7)` then `Return(1,7)` succeeds and leaves TWO borrow records for
the pair (1,7) — not "exactly one BorrowRecord for the pair" as claimed. -/
theorem round_trip_counterexample :
    (wCycled.books.map fun b => (b.id, b.is_available)) = [(1, true)] ∧
    ((borrow_book wCycled 1 7 2).toOption.bind fun p =>
      (return_book p.2 1 7 3).toOption.map fun q =>
        (q.2.borrows.filter fun r =>
          r.book_id == 1 && r.user_id == 7).length) = some 2 := by
  decide

/-- Claim C6 (amended): from any well-formed state in which book `bid` exists and
is available, `Borrow(bid,uid)` succeeds; any second `Borrow` of the same
book issued before the return fails with the already-borrowed conflict;
`Return(bid,uid)` then succeeds, restores the book's availability, leaves no
open record for the pair, adds exactly one record for the pair relative to
the pre-round-trip state (so exactly one in total when the pair had none
before), and that new record's `return_date` is non-null. -/
theorem borrow_return_round_trip (db : DB) (bid uid t₁ t₂ : Nat) (b : Book)
    (hwf : WF db) (hb : b ∈ db.books) (hid : b.id = bid)
    (hav : b.is_available = true) :
    ∃ r db₁ bk db₂,
      borrow_book db bid uid t₁ = .ok (r, db₁) ∧
      (∀ uid₂ t₃, borrow_book db₁ bid uid₂ t₃ =
        .error (.http 400 "Book is already borrowed")) ∧
      return_book db₁ bid uid t₂ = .ok (bk, db₂) ∧
      (∀ b' ∈ db₂.books, b'.id = bid → b'.is_available = true) ∧
      (db₂.borrows.countP fun r' =>
        r'.book_id == bid && r'.user_id == uid && r'.return_date == none) = 0 ∧
      (db₂.borrows.countP fun r' => r'.book_id == bid && r'.user_id == uid) =
        (db.borrows.countP fun r' =>
          r'.book_id == bid && r'.user_id == uid) + 1 ∧
      ((db.borrows.countP fun r' =>
          r'.book_id == bid && r'.user_id == uid) = 0 →
        (db₂.borrows.countP fun r' =>
          r'.book_id == bid && r'.user_id == uid) = 1) ∧
      ∃ r' ∈ db₂.borrows, r'.id = r.id ∧ r'.return_date = some t₂ := by
  have hfind_b : db.books.find? (fun x => x.id == bid) = some b :=
    find?_key_of_nodup Book.id hwf.books_nodup hb hid
  set r := newBorrow db bid uid t₁ with hr_def
  set db₁ := borrowDB db bid uid t₁ with hdb₁_def
  have hborrow : borrow_book db bid uid t₁ = .ok (r, db₁) :=
    borrow_book_ok_iff.mpr ⟨⟨b, hfind_b, hav⟩, rfl, rfl⟩
  have hnd₁ : (db₁.books.map Book.id).Nodup := by
    show ((db.books.map _).map Book.id).Nodup
    rw [map_key_map_of_key_eq Book.id
      (fun a => by by_cases h : a.id = bid <;> simp [h])]
    exact hwf.books_nodup
  have hbm₁ : { b with is_available := false } ∈ db₁.books := by
    have hmem := List.mem_map_of_mem
      (fun c : Book => if c.id == bid then { c with is_available := false }
        else c) hb
    have hfb : (fun c : Book => if c.id == bid
        then { c with is_available := false } else c) b =
        { b with is_available := false } := by
      simp [hid]
    rw [hfb] at hmem
    exact hmem
  have hfind₁ : db₁.books.find? (fun x => x.id == bid) =
      some { b with is_available := false } :=
    find?_key_of_nodup Book.id hnd₁ hbm₁ hid
  have hconf : ∀ uid₂ t₃, borrow_book db₁ bid uid₂ t₃ =
      .error (.http 400 "Book is already borrowed") := fun uid₂ t₃ =>
    borrow_book_conflict_iff.mpr ⟨{ b with is_available := false }, hfind₁, rfl⟩
  have h0 : openFor db bid = 0 := by
    have := hwf.avail b hb
    rw [hav, hid] at this
    simpa using this
  have hnoneP : db.borrows.find? (fun x =>
      x.book_id == bid && x.user_id == uid && x.return_date == none) = none := by
    rw [List.find?_eq_none]
    intro x hx hp
    simp only [Bool.and_eq_true, beq_iff_eq] at hp
    have : x.book_id == bid && x.return_date == none := by
      simp [hp.1.1]
      simpa using hp.2
    have hle := List.countP_eq_zero.mp h0 x hx
    exact hle this
  have hfindP : db₁.borrows.find? (fun x =>
      x.book_id == bid && x.user_id == uid && x.return_date == none) = some r := by
    show ((db.borrows ++ [r]).find? _) = some r
    rw [List.find?_append, hnoneP, Option.none_or]
    rw [List.find?_cons_of_pos _ (by simp [hr_def, newBorrow])]
  set db₂ := returnDB db₁ bid r.id t₂ with hdb₂_def
  have hret : return_book db₁ bid uid t₂ =
      .ok ({ { b with is_available := false } with is_available := true }, db₂) :=
    return_book_ok_iff.mpr ⟨r, { b with is_available := false }, hfindP, hfind₁,
      rfl, rfl⟩
  set rC : BookBorrow :=
    { r with due_date := t₂, return_date := some t₂ } with hrC_def
  have hclose : db₂.borrows = db.borrows ++ [rC] := by
    show closeAt (db.borrows ++ [r]) r.id t₂ = _
    unfold closeAt
    rw [List.map_append]
    congr 1
    · have hcong : ∀ x ∈ db.borrows,
          (fun r' : BookBorrow => if r'.id == r.id
            then { r' with due_date := t₂, return_date := some t₂ }
            else r') x = id x := by
        intro x hx
        have hlt := hwf.ids_lt x hx
        have hne : x.id ≠ r.id := by
          simp only [hr_def, newBorrow]
          omega
        simp [hne]
      rw [List.map_congr_left hcong, List.map_id]
    · simp
  refine ⟨r, db₁, _, db₂, hborrow, hconf, hret, ?_, ?_, ?_, ?_, ?_⟩
  · intro b' hb' hbid'
    obtain ⟨c, hc, rfl⟩ := List.mem_map.mp hb'
    by_cases h : c.id = bid
    · simp [h]
    · simp [h] at hbid'
  · rw [hclose, List.countP_append]
    have hz : (db.borrows.countP fun r' =>
        r'.book_id == bid && r'.user_id == uid && r'.return_date == none) = 0 := by
      have hmono := List.countP_mono_left (l := db.borrows)
        (p := fun r' : BookBorrow =>
          r'.book_id == bid && r'.user_id == uid && r'.return_date == none)
        (q := fun r' : BookBorrow => r'.book_id == bid && r'.return_date == none)
        (by
          intro x hx hp
          simp only [Bool.and_eq_true] at hp
          simp [hp.1.1, hp.2])
      have h0' : (db.borrows.countP fun r' : BookBorrow =>
          r'.book_id == bid && r'.return_date == none) = 0 := h0
      omega
    rw [hz]
    simp [hrC_def]
  · rw [hclose, List.countP_append]
    simp [hrC_def, hr_def, newBorrow, List.countP_cons]
  · intro hz
    rw [hclose, List.countP_append, hz]
    simp [hrC_def, hr_def, newBorrow, List.countP_cons]
  · refine ⟨rC, ?_, rfl, rfl⟩
    rw [hclose]
    exact List.mem_append_right _ (List.mem_singleton.mpr rfl)

/-- Witness for C6: the amended round trip instantiated at the fresh state
`wInit` with book 1 and user 7. -/
theorem borrow_return_round_trip_witness :
    ∃ r db₁ bk db₂,
      borrow_book wInit 1 7 0 = .ok (r, db₁) ∧
      (∀ uid₂ t₃, borrow_book db₁ 1 uid₂ t₃ =
        .error (.http 400 "Book is already borrowed")) ∧
      return_book db₁ 1 7 3 = .ok (bk, db₂) ∧
      (∀ b' ∈ db₂.books, b'.id = 1 → b'.is_available = true) ∧
      (db₂.borrows.countP fun r' =>
        r'.book_id == 1 && r'.user_id == 7 && r'.return_date == none) = 0 ∧
      (db₂.borrows.countP fun r' => r'.book_id == 1 && r'.user_id == 7) =
        (wInit.borrows.countP fun r' =>
          r'.book_id == 1 && r'.user_id == 7) + 1 ∧
      ((wInit.borrows.countP fun r' =>
          r'.book_id == 1 && r'.user_id == 7) = 0 →
        (db₂.borrows.countP fun r' =>
          r'.book_id == 1 && r'.user_id == 7) = 1) ∧
      ∃ r' ∈ db₂.borrows, r'.id = r.id ∧ r'.return_date = some 3 :=
  borrow_return_round_trip wInit 1 7 0 3 wBook
    ⟨by decide, by decide, by decide, by decide, by decide⟩
    (by decide) rfl rfl

/-- Counterexample for C7: in the reachable state `wReborrowed` exactly one book
is unavailable, yet `ListBorrowed` returns TWO entries — one of them (with
`borrow_date = 0`) derived from the book's CLOSED borrow record (the record
with `return_date = some 1`), contradicting "exactly one entry per
unavailable book" and "no entries derived from closed borrow records". -/
theorem get_borrowed_books_counterexample :
    (wReborrowed.books.map fun b => (b.id, b.is_available)) = [(1, false)] ∧
    wReborrowed.borrows.map BookBorrow.return_date = [some 1, none] ∧
    (get_borrowed_books wReborrowed).toOption.map List.length = some 2 ∧
    (get_borrowed_books wReborrowed).toOption.map
      (List.map BookBorrowedResponse.borrow_date) = some [0, 2] := by
  decide

/-- Claim C7 (amended): in every reachable state, `ListBorrowed` fails with 404
exactly when every book is available; otherwise it returns one entry per
pair of an unavailable book and a borrow record referencing it — including
pairs arising from closed records — each entry carrying the book's data and
that record's dates. -/
theorem get_borrowed_books_contract (db : DB) (h : Reachable db) :
    (get_borrowed_books db = .error (.http 404 "No borrowed books found") ↔
      ∀ b ∈ db.books, b.is_available = true) ∧
    ∀ l, get_borrowed_books db = .ok l →
      l.length = ((db.books.filter fun b => !b.is_available).map fun b =>
        (db.borrows.filter fun r => r.book_id == b.id).length).sum ∧
      ∀ e ∈ l, ∃ b ∈ db.books, b.is_available = false ∧
        ∃ r ∈ db.borrows, r.book_id = b.id ∧ e = borrowedRow b r := by
  have hwf := reachable_WF h
  have hempty : borrowedRows db = [] ↔ ∀ b ∈ db.books, b.is_available = true := by
    unfold borrowedRows
    rw [List.flatMap_eq_nil_iff]
    constructor
    · intro hh b hb
      cases hbav : b.is_available
      · exfalso
        have h1 := hwf.avail b hb
        rw [hbav] at h1
        simp only [Bool.false_eq_true, if_false] at h1
        have hpos : 0 < openFor db b.id := by omega
        rw [openFor, List.countP_pos_iff] at hpos
        obtain ⟨r, hr, hp⟩ := hpos
        simp only [Bool.and_eq_true, beq_iff_eq] at hp
        have hbr := hh b hb
        rw [if_neg (by simp [hbav])] at hbr
        have hfil : db.borrows.filter (fun r' => r'.book_id == b.id) = [] := by
          have := congrArg List.length hbr
          rw [List.length_map] at this
          exact List.length_eq_zero.mp this
        have : r ∈ db.borrows.filter (fun r' => r'.book_id == b.id) :=
          List.mem_filter.mpr ⟨hr, by simp [hp.1]⟩
        rw [hfil] at this
        cases this
      · rfl
    · intro hall b hb
      simp [hall b hb]
  constructor
  · unfold get_borrowed_books
    by_cases he : (borrowedRows db).isEmpty
    · rw [if_pos he]
      simp only [true_iff]
      exact hempty.mp (List.isEmpty_iff.mp he)
    · rw [if_neg he]
      constructor
      · intro hh; cases hh
      · intro hall
        exact absurd (List.isEmpty_iff.mpr (hempty.mpr hall)) he
  · intro l hok
    have hl : l = borrowedRows db := by
      unfold get_borrowed_books at hok
      by_cases he : (borrowedRows db).isEmpty
      · rw [if_pos he] at hok; cases hok
      · rw [if_neg he] at hok
        exact (Except.ok.injEq _ _ |>.mp hok).symm
    subst hl
    constructor
    · unfold borrowedRows
      rw [List.length_flatMap]
      have hpt : ∀ b ∈ db.books,
          (List.length ∘ fun b' : Book =>
            if b'.is_available then ([] : List BookBorrowedResponse)
            else (db.borrows.filter (fun r => r.book_id == b'.id)).map
              (borrowedRow b')) b =
          (fun b' : Book => if b'.is_available then 0
            else (db.borrows.filter fun r => r.book_id == b'.id).length) b := by
        intro b hb
        cases hbav : b.is_available <;> simp [hbav]
      rw [List.map_congr_left hpt]
      rw [sum_map_filter (fun b => !b.is_available)
        (fun b' : Book => if b'.is_available then 0
          else (db.borrows.filter fun r => r.book_id == b'.id).length)
        db.books
        (by intro a ha hpa; simp at hpa; simp [hpa])]
      apply congrArg
      apply List.map_congr_left
      intro a ha
      have : a.is_available = false := by
        have := (List.mem_filter.mp ha).2
        simpa using this
      simp [this]
    · intro e he
      unfold borrowedRows at he
      rw [List.mem_flatMap] at he
      obtain ⟨b, hb, hef⟩ := he
      cases hbav : b.is_available
      · rw [if_neg (by simp [hbav])] at hef
        obtain ⟨r, hrf, rfl⟩ := List.mem_map.mp hef
        obtain ⟨hrm, hrp⟩ := List.mem_filter.mp hrf
        exact ⟨b, hb, hbav, r, hrm, by simpa using hrp, rfl⟩
      · rw [if_pos hbav] at hef
        cases hef

/-- Witness for C7: the amended contract instantiated at `wReborrowed`. -/
theorem get_borrowed_books_contract_witness :
    (get_borrowed_books wReborrowed =
        .error (.http 404 "No borrowed books found") ↔
      ∀ b ∈ wReborrowed.books, b.is_available = true) :=
  (get_borrowed_books_contract wReborrowed
      ⟨wInit, [Op.borrow 1 7 0, Op.ret 1 7 1, Op.borrow 1 7 2],
        ⟨by decide, rfl, by decide⟩, rfl⟩).1

/-- Counterexample for C8: in the reachable state `wCycled`, book 1 has NO open
borrow (zero records with `return_date IS NULL`), yet its single catalog
entry carries non-null borrow metadata (`borrow_date = some 0`,
`return_date = some 1`) taken from the closed record, contradicting
"every book without a current open borrow has its open-borrow metadata left
null"; and in `wReborrowed` the single book yields TWO catalog entries,
contradicting "one entry per Book". -/
theorem get_all_books_counterexample :
    wCycled.books.length = 1 ∧
    (wCycled.borrows.countP fun r => r.return_date == none) = 0 ∧
    ((get_all_books wCycled).map fun e => (e.borrow_date, e.return_date)) =
      [(some 0, some 1)] ∧
    wReborrowed.books.length = 1 ∧
    (get_all_books wReborrowed).length = 2 := by
  decide

/-- Claim C8 (amended): the catalog listing is total (never raises) and returns,
for each book, one entry per borrow record referencing it — carrying that
record's dates even when the record is closed — or a single entry with null
metadata exactly when the book has no borrow records at all. -/
theorem get_all_books_contract (db : DB) :
    (get_all_books db).length = (db.books.map fun b =>
      max 1 (db.borrows.filter fun r => r.book_id == b.id).length).sum ∧
    (∀ b ∈ db.books, (db.borrows.filter fun r => r.book_id == b.id) = [] →
      bookRow b none none none ∈ get_all_books db) ∧
    ∀ e ∈ get_all_books db, ∃ b ∈ db.books,
      (e = bookRow b none none none ∧
        (db.borrows.filter fun r => r.book_id == b.id) = []) ∨
      ∃ r ∈ db.borrows, r.book_id = b.id ∧
        e = bookRow b (some r.borrow_date) (some r.due_date) r.return_date := by
  refine ⟨?_, ?_, ?_⟩
  · unfold get_all_books
    rw [List.length_flatMap]
    apply congrArg
    apply List.map_congr_left
    intro b hb
    cases hfil : db.borrows.filter fun r => r.book_id == b.id with
    | nil => simp [hfil]
    | cons x xs => simp [hfil, Nat.max_eq_right, Nat.succ_le_succ]
  · intro b hb hfil
    unfold get_all_books
    rw [List.mem_flatMap]
    refine ⟨b, hb, ?_⟩
    rw [hfil]
    exact List.mem_singleton.mpr rfl
  · intro e he
    unfold get_all_books at he
    rw [List.mem_flatMap] at he
    obtain ⟨b, hb, hef⟩ := he
    refine ⟨b, hb, ?_⟩
    cases hfil : db.borrows.filter (fun r => r.book_id == b.id) with
    | nil =>
      rw [hfil] at hef
      left
      exact ⟨(List.mem_singleton.mp hef), rfl⟩
    | cons x xs =>
      rw [hfil] at hef
      right
      obtain ⟨r, hrm, rfl⟩ := List.mem_map.mp hef
      have hrf : r ∈ db.borrows.filter (fun r' => r'.book_id == b.id) := by
        rw [hfil]; exact hrm
      obtain ⟨hrb, hrp⟩ := List.mem_filter.mp hrf
      exact ⟨r, hrb, by simpa using hrp, rfl⟩

/-- Claim C10 (implicit): `borrow_book` never consults the `users` table — it
succeeds for ANY `user_id`, including ids with no `User` row, whenever the
book exists and is available, recording that `user_id` on the new borrow
record; and its 404 error characterizes a missing book only, never a missing
member. -/
theorem borrow_never_checks_member (db : DB) (bid uid now : Nat)
    (hnd : (db.books.map Book.id).Nodup) :
    ((∃ b ∈ db.books, b.id = bid ∧ b.is_available = true) →
      ∃ r db', borrow_book db bid uid now = .ok (r, db') ∧
        r.user_id = uid ∧ db'.borrows = db.borrows ++ [r]) ∧
    (borrow_book db bid uid now = .error (.http 404 "Book not found") ↔
      ∀ b ∈ db.books, b.id ≠ bid) := by
  constructor
  · rintro ⟨b, hb, hbid, hbav⟩
    exact ⟨newBorrow db bid uid now, borrowDB db bid uid now,
      borrow_book_ok_iff.mpr
        ⟨⟨b, find?_key_of_nodup Book.id hnd hb hbid, hbav⟩, rfl, rfl⟩,
      rfl, rfl⟩
  · rw [borrow_book_notFound_iff, List.find?_eq_none]
    constructor
    · intro hh b hb; have := hh b hb; simpa using this
    · intro hh b hb; simpa using hh b hb

/-- Witness for C10: user id 99 has no row in `wInit.users`, yet borrowing
book 1 for member 99 succeeds and records `user_id = 99`. -/
theorem borrow_never_checks_member_witness :
    99 ∉ wInit.users ∧
    (((∃ b ∈ wInit.books, b.id = 1 ∧ b.is_available = true) →
      ∃ r db', borrow_book wInit 1 99 0 = .ok (r, db') ∧
        r.user_id = 99 ∧ db'.borrows = wInit.borrows ++ [r]) ∧
    (borrow_book wInit 1 99 0 = .error (.http 404 "Book not found") ↔
      ∀ b ∈ wInit.books, b.id ≠ 1)) :=
  ⟨by decide, borrow_never_checks_member wInit 1 99 0 (by decide)⟩

end Library
